import Mathlib

/-!
Shallow embedding of the Inventory-Management-System core: the
purchase/sale transaction processor (backend/routes/sales.js,
backend/routes/purchases.js), the dashboard aggregator
(backend/utils/dashboardMetrics.js) and the product schema
(backend/models/Product.js).

Numbers: JS numbers are modelled as exact rationals (prices, money) and
integers (quantities parsed with parseInt); float rounding is not modelled.
The document store is modelled as in-memory lists; `product.save()` is an
update-by-_id on the product list.
-/

/-- Product document (backend/models/Product.js): `_id` is modelled as a
string, `productId`/`sku` are the unique codes, `reorderPoint` defaults
to 10 in the schema. -/
structure Product where
  mongoId : String
  name : String
  sku : String
  productId : String
  price : ℚ
  quantity : Int
  reorderPoint : Int
  size : String
  gsm : String
  image : String
deriving Repr, DecidableEq

/-- Line item embedded in a Sale (normalizedItems of persistSale). -/
structure SaleLineItem where
  productId : String
  productName : String
  quantity : Int
  price : ℚ
  pricePerQuantity : ℚ
  total : ℚ
  size : String
  gsm : String
deriving Repr, DecidableEq

/-- Sale record (backend/models/Sale.js essentials used by the core). -/
structure Sale where
  billId : String
  customerName : String
  subtotal : ℚ
  tax : ℚ
  total : ℚ
  items : List SaleLineItem
deriving Repr, DecidableEq

/-- Line item embedded in a Purchase (normalizedItems of persistPurchase);
purchases have no pricePerQuantity field. -/
structure PurchaseLineItem where
  productId : String
  productName : String
  quantity : Int
  price : ℚ
  total : ℚ
  size : String
  gsm : String
deriving Repr, DecidableEq

/-- Purchase record (backend/models/Purchase.js essentials). -/
structure Purchase where
  billId : String
  supplierName : String
  subtotal : ℚ
  tax : ℚ
  total : ℚ
  items : List PurchaseLineItem
deriving Repr, DecidableEq

/-- The singleton dashboard snapshot (backend/models/DashboardStat.js). -/
structure DashboardStat where
  totalSales : ℚ
  inventoryValue : ℚ
  orders : Nat
  lowStock : Nat
  outOfStock : Nat
deriving Repr, DecidableEq

/-- The backing store: products, sales, purchases collections and the
singleton dashboard snapshot. -/
structure DB where
  products : List Product
  sales : List Sale
  purchases : List Purchase
  dashboard : Option DashboardStat
deriving Repr, DecidableEq

/-- One entry of the `items` array of a sale request, after the JS
parseInteger/parseFloat coercions (`quantity` via parseInt with fallback 0,
prices via parseFloat with fallback 0). An absent/falsy productId is
modelled as the empty string. -/
structure SaleItemInput where
  productId : String
  quantity : Int
  price : ℚ
  pricePerQuantity : ℚ
deriving Repr, DecidableEq

/-- One entry of the `items` array of a purchase request. -/
structure PurchaseItemInput where
  productId : String
  quantity : Int
  price : ℚ
deriving Repr, DecidableEq

/-- JS whitespace as far as the data of this system is concerned. -/
def isSpaceChar (c : Char) : Bool :=
  c = ' ' || c = '\t' || c = '\n' || c = '\r'

/-- JS String.prototype.trim on the character list: drop leading and
trailing whitespace. -/
def trimChars (l : List Char) : List Char :=
  ((l.dropWhile isSpaceChar).reverse.dropWhile isSpaceChar).reverse

/-- `normalizeString`: String(value ?? "").trim(). -/
def normalizeString (s : String) : String := String.mk (trimChars s.data)

/-- JS String.prototype.toUpperCase (ASCII range, which covers the SKU and
product-code alphabet). -/
def toUpperString (s : String) : String := String.mk (s.data.map Char.toUpper)

/-- The 24-char-hex test guarding the findById fallback of
loadProductByIdentifier. -/
def isHex24 (s : String) : Bool :=
  s.length = 24 && s.toList.all fun c =>
    c.isDigit || ('a' ≤ c && c ≤ 'f') || ('A' ≤ c && c ≤ 'F')

/-- `loadProductByIdentifier`: try productId/sku match on the trimmed,
uppercased code first, then findById when the identifier looks like an
ObjectId. `findOne` returns the first matching document. -/
def loadProductByIdentifier (identifier : String) (products : List Product) :
    Option Product :=
  if identifier = "" then none
  else
    match products.find? (fun p =>
        p.productId = toUpperString (normalizeString identifier) ||
          p.sku = toUpperString (normalizeString identifier)) with
    | some p => some p
    | none =>
        if isHex24 (normalizeString identifier) then
          products.find? (fun p => p.mongoId = normalizeString identifier)
        else none

/-- `product.save()`: persist the mutated document, replacing the stored
document with the same `_id`. -/
def updateProduct (products : List Product) (p : Product) : List Product :=
  products.map fun q => if q.mongoId = p.mongoId then p else q

/-- effectivePrice of a sale item: the supplied price when > 0, else the
resolved product's current stored price. -/
def saleEffectivePrice (item : SaleItemInput) (product : Product) : ℚ :=
  if item.price > 0 then item.price else product.price

/-- The product mutation a sale item applies before product.save():
quantity minus the deducted amount; price set to the effective price when
that is > 0, else left at the stored price. -/
def saleUpdatedProduct (item : SaleItemInput) (product : Product) : Product :=
  { product with
    quantity := product.quantity - item.quantity
    price :=
      if saleEffectivePrice item product > 0 then saleEffectivePrice item product
      else product.price }

/-- The normalizedItems entry pushed for a sale item. -/
def saleLineItemOf (item : SaleItemInput) (product : Product) : SaleLineItem :=
  { productId := product.mongoId
    productName := product.name
    quantity := item.quantity
    price := saleEffectivePrice item product
    pricePerQuantity :=
      if item.pricePerQuantity > 0 then item.pricePerQuantity
      else saleEffectivePrice item product * (item.quantity : ℚ)
    total :=
      (if item.pricePerQuantity > 0 then item.pricePerQuantity
       else saleEffectivePrice item product) * (item.quantity : ℚ)
    size := normalizeString product.size
    gsm := normalizeString product.gsm }

/-- Body of one iteration of the persistSale item loop: validate the item,
resolve the product, check stock, compute the effective price, mutate and
save the product, and build the line-item snapshot. Returns the saved
products list, the updated product and the snapshot, or the thrown error
message. -/
def saleItemStep (i : Nat) (item : SaleItemInput) (products : List Product) :
    Except String (List Product × Product × SaleLineItem) :=
  if item.productId = "" then
    .error ("items[" ++ toString i ++ "].productId required")
  else if item.quantity ≤ 0 then
    .error ("items[" ++ toString i ++ "].quantity must be greater than 0")
  else
    match loadProductByIdentifier item.productId products with
    | none => .error ("Product not found for id " ++ item.productId)
    | some product =>
      if product.quantity < item.quantity then
        .error ("Insufficient stock for product " ++ product.name)
      else
        .ok (updateProduct products (saleUpdatedProduct item product),
             saleUpdatedProduct item product, saleLineItemOf item product)

/-- The persistSale item loop. Returns the products collection as left by
the already-executed `product.save()` calls (an error does not undo them),
together with either the first thrown error or the accumulated
updatedProducts and normalizedItems. -/
def processSaleItems :
    List SaleItemInput → Nat → List Product →
      List Product × Except String (List Product × List SaleLineItem)
  | [], _, products => (products, .ok ([], []))
  | item :: rest, i, products =>
    match saleItemStep i item products with
    | .error e => (products, .error e)
    | .ok (products', updated, line) =>
      match processSaleItems rest (i + 1) products' with
      | (productsF, .error e) => (productsF, .error e)
      | (productsF, .ok (ups, lines)) =>
          (productsF, .ok (updated :: ups, line :: lines))

/-- Metadata of a sale request body (items handled separately so that the
router's Array.isArray check can be modelled). -/
structure SaleRequest where
  billId : String
  customerName : String
  subtotal : ℚ
  tax : ℚ
  total : ℚ
  items : Option (List SaleItemInput)
deriving Repr, DecidableEq

/-- `persistSale`: run the item loop, then build and save the Sale record.
The returned DB reflects every product.save() that ran, even on error; the
Sale is appended only when every item succeeded. -/
def persistSale (req : SaleRequest) (items : List SaleItemInput) (db : DB) :
    DB × Except String (Sale × List Product) :=
  match processSaleItems items 0 db.products with
  | (products', .error e) => ({ db with products := products' }, .error e)
  | (products', .ok (ups, lines)) =>
    let sale : Sale :=
      { billId := normalizeString req.billId
        customerName := normalizeString req.customerName
        subtotal := req.subtotal
        tax := req.tax
        total := req.total
        items := lines }
    ({ db with products := products', sales := db.sales ++ [sale] },
     .ok (sale, ups))

/-! ## Dashboard aggregator (backend/utils/dashboardMetrics.js) -/

/-- buildInventorySnapshot: one pass computing the inventory value and a
second reduce computing (lowStockCount, outOfStockCount): quantity <= 0
counts as out of stock, else quantity <= reorderPoint counts as low
stock. -/
def buildInventorySnapshot (products : List Product) : ℚ × Nat × Nat :=
  let inventoryValue :=
    products.foldl (fun sum p => sum + p.price * (p.quantity : ℚ)) 0
  let counts :=
    products.foldl
      (fun acc p =>
        if p.quantity ≤ 0 then (acc.1, acc.2 + 1)
        else if p.quantity ≤ p.reorderPoint then (acc.1 + 1, acc.2)
        else acc)
      (0, 0)
  (inventoryValue, counts.1, counts.2)

/-- buildSalesSnapshot: the $group aggregation summing `total` and counting
Sale documents (0 and 0 when the collection is empty). -/
def buildSalesSnapshot (sales : List Sale) : ℚ × Nat :=
  (sales.foldl (fun sum s => sum + s.total) 0, sales.length)

/-- buildPurchasesSnapshot: the $group aggregation over Purchase. -/
def buildPurchasesSnapshot (purchases : List Purchase) : ℚ × Nat :=
  (purchases.foldl (fun sum p => sum + p.total) 0, purchases.length)

/-- recalculateDashboardStats: recompute the three snapshots from the full
collections, take orders = max(sale count, purchase count), and overwrite
the singleton DashboardStat (upsert). Returns the stored stats. -/
def recalculateDashboardStats (db : DB) : DB × DashboardStat :=
  let inventory := buildInventorySnapshot db.products
  let salesSnapshot := buildSalesSnapshot db.sales
  let purchaseSnapshot := buildPurchasesSnapshot db.purchases
  let orders := max salesSnapshot.2 purchaseSnapshot.2
  let stats : DashboardStat :=
    { totalSales := salesSnapshot.1
      inventoryValue := inventory.1
      orders := orders
      lowStock := inventory.2.1
      outOfStock := inventory.2.2 }
  ({ db with dashboard := some stats }, stats)

/-! ## Sale route handler (router.post("/") in backend/routes/sales.js) -/

/-- The JSON body the sale route sends back: 201 carries the sale, the
updated products and (outside test env) the recomputed dashboard; errors
carry the message string. -/
inductive SaleResponse
  | created (sale : Sale) (updatedProducts : List Product)
      (dashboard : Option DashboardStat)
  | failed (error : String)
deriving Repr, DecidableEq

/-- POST /api/sales: 400 for missing billId or missing/empty items array;
otherwise persistSale, then incrementDashboardCounters followed by
recalculateDashboardStats (the recompute overwrites every field the
increment touched, so only the recompute is modelled), 201 on success and
500 with the thrown message on error. An error leaves the products exactly
as persistSale left them (there is no transaction on the sale path). -/
def postSale (req : SaleRequest) (db : DB) : Nat × DB × SaleResponse :=
  if req.billId = "" then (400, db, .failed "billId required")
  else
    match req.items with
    | none => (400, db, .failed "items array required")
    | some [] => (400, db, .failed "items array required")
    | some items =>
      match persistSale req items db with
      | (db', .error e) => (500, db', .failed e)
      | (db', .ok (sale, ups)) =>
        let recalc := recalculateDashboardStats db'
        (201, recalc.1, .created sale ups (some recalc.2))

/-! ## Purchase processing (backend/routes/purchases.js) -/

/-- effectivePrice of a purchase item. -/
def purchaseEffectivePrice (item : PurchaseItemInput) (product : Product) : ℚ :=
  if item.price > 0 then item.price else product.price

/-- The product mutation a purchase item applies: quantity is
unconditionally increased (no stock check on purchases). -/
def purchaseUpdatedProduct (item : PurchaseItemInput) (product : Product) :
    Product :=
  { product with
    quantity := product.quantity + item.quantity
    price := purchaseEffectivePrice item product }

/-- The normalizedItems entry pushed for a purchase item. -/
def purchaseLineItemOf (item : PurchaseItemInput) (product : Product) :
    PurchaseLineItem :=
  { productId := product.mongoId
    productName := product.name
    quantity := item.quantity
    price := purchaseEffectivePrice item product
    total := purchaseEffectivePrice item product * (item.quantity : ℚ)
    size := normalizeString product.size
    gsm := normalizeString product.gsm }

/-- Body of one iteration of the persistPurchase item loop: validate,
resolve, add the quantity unconditionally (no stock check), set the price
to the effective price, save, and build the snapshot. -/
def purchaseItemStep (i : Nat) (item : PurchaseItemInput)
    (products : List Product) :
    Except String (List Product × Product × PurchaseLineItem) :=
  if item.productId = "" then
    .error ("items[" ++ toString i ++ "].productId required")
  else if item.quantity ≤ 0 then
    .error ("items[" ++ toString i ++ "].quantity must be greater than 0")
  else
    match loadProductByIdentifier item.productId products with
    | none => .error ("Product not found for id " ++ item.productId)
    | some product =>
      .ok (updateProduct products (purchaseUpdatedProduct item product),
           purchaseUpdatedProduct item product, purchaseLineItemOf item product)

/-- The persistPurchase item loop, same shape as processSaleItems. -/
def processPurchaseItems :
    List PurchaseItemInput → Nat → List Product →
      List Product × Except String (List Product × List PurchaseLineItem)
  | [], _, products => (products, .ok ([], []))
  | item :: rest, i, products =>
    match purchaseItemStep i item products with
    | .error e => (products, .error e)
    | .ok (products', updated, line) =>
      match processPurchaseItems rest (i + 1) products' with
      | (productsF, .error e) => (productsF, .error e)
      | (productsF, .ok (ups, lines)) =>
          (productsF, .ok (updated :: ups, line :: lines))

/-- Metadata of a purchase request body. -/
structure PurchaseRequest where
  billId : String
  supplierName : String
  subtotal : ℚ
  tax : ℚ
  total : ℚ
  items : Option (List PurchaseItemInput)
deriving Repr, DecidableEq

/-- persistPurchase: run the item loop, then build and save the Purchase
record; supplierName defaults to "Unknown Supplier" when blank. -/
def persistPurchase (req : PurchaseRequest) (items : List PurchaseItemInput)
    (db : DB) : DB × Except String (Purchase × List Product) :=
  match processPurchaseItems items 0 db.products with
  | (products', .error e) => ({ db with products := products' }, .error e)
  | (products', .ok (ups, lines)) =>
    let trimmedSupplier := normalizeString req.supplierName
    let purchase : Purchase :=
      { billId := normalizeString req.billId
        supplierName :=
          if trimmedSupplier = "" then "Unknown Supplier" else trimmedSupplier
        subtotal := req.subtotal
        tax := req.tax
        total := req.total
        items := lines }
    ({ db with products := products', purchases := db.purchases ++ [purchase] },
     .ok (purchase, ups))

/-- The JSON body the purchase route sends back. -/
inductive PurchaseResponse
  | created (purchase : Purchase) (updatedProducts : List Product)
      (dashboard : Option DashboardStat)
  | failed (error : String)
deriving Repr, DecidableEq

/-- POST /api/purchases. `transactionsRequested` models the
MONGO_TRANSACTIONS toggle, `canUse` the topology detection
(canUseTransactions), `txnRejected` whether the backend throws
"Transaction numbers are only allowed..." at the first transactional
write. With a working session, failures are rolled back (abortTransaction)
and nothing is committed until commitTransaction; with a rejected
transaction, nothing was committed and the whole batch is re-run without a
session, its result returned as the response; without a session, the
mutations already applied survive an error. -/
def postPurchase (transactionsRequested canUse txnRejected : Bool)
    (req : PurchaseRequest) (db : DB) : Nat × DB × PurchaseResponse :=
  if req.billId = "" then (400, db, .failed "billId required")
  else
    match req.items with
    | none => (400, db, .failed "items array required")
    | some [] => (400, db, .failed "items array required")
    | some (item0 :: rest) =>
      let shouldUseTransactions := transactionsRequested && canUse
      if shouldUseTransactions then
        if txnRejected then
          match purchaseItemStep 0 item0 db.products with
          | .error e => (500, db, .failed e)
          | .ok _ =>
            match persistPurchase req (item0 :: rest) db with
            | (db', .error e) => (500, db', .failed e)
            | (db', .ok (purchase, ups)) =>
              let recalc := recalculateDashboardStats db'
              (201, recalc.1, .created purchase ups (some recalc.2))
        else
          match persistPurchase req (item0 :: rest) db with
          | (_, .error e) => (500, db, .failed e)
          | (db', .ok (purchase, ups)) =>
            let recalc := recalculateDashboardStats db'
            (201, recalc.1, .created purchase ups (some recalc.2))
      else
        match persistPurchase req (item0 :: rest) db with
        | (db', .error e) => (500, db', .failed e)
        | (db', .ok (purchase, ups)) =>
          let recalc := recalculateDashboardStats db'
          (201, recalc.1, .created purchase ups (some recalc.2))

/-! ## Observations used by the claims -/

/-- The product fields the transaction processor never writes (everything
in the schema except quantity, price and the timestamps). -/
def productFrame (p : Product) :
    String × String × String × Int × String × String × String :=
  (p.name, p.sku, p.productId, p.reorderPoint, p.size, p.gsm, p.image)

/-- The stored quantity of the product with the given _id (0 when absent). -/
def qtyOf (id : String) (products : List Product) : Int :=
  ((products.find? fun q => q.mongoId = id).map Product.quantity).getD 0

/-- The _id of the product an item identifier resolves to. -/
def resolveId (identifier : String) (products : List Product) : Option String :=
  (loadProductByIdentifier identifier products).map Product.mongoId

/-- Total quantity of the purchase items that resolve to the given _id. -/
def itemsQtySum (id : String) (items : List PurchaseItemInput)
    (products : List Product) : Int :=
  ((items.filter fun it => resolveId it.productId products = some id).map
    PurchaseItemInput.quantity).sum

/-- Modelled from the spec, for comparison with recalculateDashboardStats:
the reference dashboard snapshot of §4.3 —
inventory value = Σ price·quantity, low stock counts 0 < quantity ≤
reorderPoint, out of stock counts quantity ≤ 0, total sales = Σ total over
Sale records, orders = max(sale count, purchase count). -/
def specDashboardStat (db : DB) : DashboardStat :=
  { totalSales := (db.sales.map Sale.total).sum
    inventoryValue := (db.products.map fun p => p.price * (p.quantity : ℚ)).sum
    orders := max db.sales.length db.purchases.length
    lowStock :=
      (db.products.filter fun p => 0 < p.quantity ∧ p.quantity ≤ p.reorderPoint).length
    outOfStock := (db.products.filter fun p => p.quantity ≤ 0).length }

/-! ## Lemmas about the product store -/

theorem find?_congr_of_mem {α} {p q : α → Bool} :
    ∀ l : List α, (∀ x ∈ l, p x = q x) → l.find? p = l.find? q := by
  intro l
  induction l with
  | nil => intro _; rfl
  | cons x xs ih =>
    intro h
    have hx := h x (List.mem_cons_self x xs)
    by_cases hpx : p x = true
    · rw [List.find?_cons_of_pos _ hpx, List.find?_cons_of_pos _ (hx ▸ hpx)]
    · rw [List.find?_cons_of_neg _ hpx,
        List.find?_cons_of_neg _ (hx ▸ hpx)]
      exact ih fun y hy => h y (List.mem_cons_of_mem x hy)

theorem updateApply_mongoId (p q : Product) :
    (if q.mongoId = p.mongoId then p else q).mongoId = q.mongoId := by
  by_cases h : q.mongoId = p.mongoId <;> simp [h]

theorem updateProduct_map_mongoId (ps : List Product) (p : Product) :
    (updateProduct ps p).map Product.mongoId = ps.map Product.mongoId := by
  unfold updateProduct
  rw [List.map_map]
  exact List.map_congr_left fun q _ => updateApply_mongoId p q

theorem mem_updateProduct {ps : List Product} {p q : Product}
    (h : q ∈ updateProduct ps p) : q = p ∨ q ∈ ps := by
  unfold updateProduct at h
  obtain ⟨x, hx, hgx⟩ := List.mem_map.mp h
  by_cases hc : x.mongoId = p.mongoId
  · simp only [hc, if_pos rfl, if_true] at hgx
    exact Or.inl hgx.symm
  · rw [if_neg hc] at hgx
    exact Or.inr (hgx ▸ hx)

theorem find?_mongoId_updateProduct (ps : List Product) (p : Product)
    (id : String) :
    (updateProduct ps p).find? (fun q => q.mongoId = id) =
      (ps.find? fun q => q.mongoId = id).map
        fun q => if q.mongoId = p.mongoId then p else q := by
  unfold updateProduct
  rw [List.find?_map]
  congr 1
  exact find?_congr_of_mem ps fun q _ => by
    simp only [Function.comp_apply, updateApply_mongoId]

theorem find?_mongoId_self {ps : List Product}
    (hnd : (ps.map Product.mongoId).Nodup) {p0 : Product} (hmem : p0 ∈ ps) :
    ps.find? (fun q => q.mongoId = p0.mongoId) = some p0 := by
  have hsome : (ps.find? fun q => q.mongoId = p0.mongoId).isSome := by
    rw [List.find?_isSome]
    exact ⟨p0, hmem, by simp⟩
  obtain ⟨q, hq⟩ := Option.isSome_iff_exists.mp hsome
  have hqm : q ∈ ps := List.mem_of_find?_eq_some hq
  have hqe : q.mongoId = p0.mongoId := by
    have := List.find?_some hq
    simpa using this
  rw [hq]
  exact congrArg some (List.inj_on_of_nodup_map hnd hqm hmem hqe)

theorem loadProduct_mem {ident : String} {ps : List Product} {p : Product}
    (h : loadProductByIdentifier ident ps = some p) : p ∈ ps := by
  unfold loadProductByIdentifier at h
  by_cases hempty : ident = ""
  · rw [if_pos hempty] at h
    exact absurd h (by simp)
  · rw [if_neg hempty] at h
    cases hfind : ps.find? (fun q =>
        q.productId = toUpperString (normalizeString ident) ||
          q.sku = toUpperString (normalizeString ident)) with
    | some q =>
      rw [hfind] at h
      exact List.mem_of_find?_eq_some (Option.some.inj h ▸ hfind)
    | none =>
      rw [hfind] at h
      by_cases hhex : isHex24 (normalizeString ident) = true
      · rw [if_pos hhex] at h
        exact List.mem_of_find?_eq_some h
      · rw [if_neg hhex] at h
        exact absurd h (by simp)

theorem loadProduct_updateProduct {ps : List Product}
    (hnd : (ps.map Product.mongoId).Nodup) {p0 : Product} (hmem : p0 ∈ ps)
    {newp : Product} (hid : newp.mongoId = p0.mongoId)
    (hpid : newp.productId = p0.productId) (hsku : newp.sku = p0.sku)
    (ident : String) :
    loadProductByIdentifier ident (updateProduct ps newp) =
      (loadProductByIdentifier ident ps).map
        fun q => if q.mongoId = newp.mongoId then newp else q := by
  unfold loadProductByIdentifier
  by_cases hempty : ident = ""
  · simp [hempty]
  · simp only [hempty, if_false]
    have hcode : ∀ code : String,
        (updateProduct ps newp).find? (fun p =>
          p.productId = code || p.sku = code) =
        (ps.find? fun p => p.productId = code || p.sku = code).map
          fun q => if q.mongoId = newp.mongoId then newp else q := by
      intro code
      unfold updateProduct
      rw [List.find?_map]
      congr 1
      apply find?_congr_of_mem
      intro q hq
      simp only [Function.comp_apply]
      by_cases hc : q.mongoId = newp.mongoId
      · have hq0 : q = p0 :=
          List.inj_on_of_nodup_map hnd hq hmem (hc.trans hid)
        rw [if_pos hc, hpid, hsku, hq0]
      · rw [if_neg hc]
    rw [hcode]
    cases hfind : ps.find? (fun p =>
        p.productId = toUpperString (normalizeString ident) ||
          p.sku = toUpperString (normalizeString ident)) with
    | some q => simp
    | none =>
      simp only [Option.map_none']
      by_cases hhex : isHex24 (normalizeString ident) = true
      · rw [if_pos hhex, if_pos hhex, find?_mongoId_updateProduct]
      · rw [if_neg hhex, if_neg hhex]
        rfl

theorem resolveId_updateProduct {ps : List Product}
    (hnd : (ps.map Product.mongoId).Nodup) {p0 : Product} (hmem : p0 ∈ ps)
    {newp : Product} (hid : newp.mongoId = p0.mongoId)
    (hpid : newp.productId = p0.productId) (hsku : newp.sku = p0.sku)
    (ident : String) :
    resolveId ident (updateProduct ps newp) = resolveId ident ps := by
  unfold resolveId
  rw [loadProduct_updateProduct hnd hmem hid hpid hsku]
  cases h : loadProductByIdentifier ident ps with
  | none => rfl
  | some q =>
    simp only [Option.map_some', Option.some.injEq]
    exact updateApply_mongoId newp q

theorem find?_frame_updateProduct {ps : List Product}
    (hnd : (ps.map Product.mongoId).Nodup) {p0 : Product} (hmem : p0 ∈ ps)
    {newp : Product} (hid : newp.mongoId = p0.mongoId)
    (hframe : productFrame newp = productFrame p0) (id : String) :
    ((updateProduct ps newp).find? (fun q => q.mongoId = id)).map productFrame
      = ((ps.find? fun q => q.mongoId = id).map productFrame) := by
  rw [find?_mongoId_updateProduct]
  cases h : ps.find? (fun q => q.mongoId = id) with
  | none => rfl
  | some q =>
    simp only [Option.map_some', Option.some.injEq]
    by_cases hc : q.mongoId = newp.mongoId
    · have hq0 : q = p0 :=
        List.inj_on_of_nodup_map hnd (List.mem_of_find?_eq_some h) hmem
          (hc.trans hid)
      rw [if_pos hc, hframe, hq0]
    · rw [if_neg hc]

theorem qtyOf_updateProduct {ps : List Product}
    (hnd : (ps.map Product.mongoId).Nodup) {p0 : Product} (hmem : p0 ∈ ps)
    {newp : Product} (hid : newp.mongoId = p0.mongoId) (id : String) :
    qtyOf id (updateProduct ps newp) =
      if p0.mongoId = id then newp.quantity else qtyOf id ps := by
  unfold qtyOf
  rw [find?_mongoId_updateProduct]
  by_cases hc : p0.mongoId = id
  · subst hc
    rw [find?_mongoId_self hnd hmem]
    simp [hid]
  · cases h : ps.find? (fun q => q.mongoId = id) with
    | none => simp [hc]
    | some q =>
      have hqe : q.mongoId = id := by
        have := List.find?_some h
        simpa using this
      have hqc : ¬(q.mongoId = newp.mongoId) := by
        rw [hqe, hid]
        exact fun he => hc (he.symm)
      simp [hqc, hc]

/-! ## Step and loop lemmas -/

theorem saleItemStep_ok_elim {i : Nat} {item : SaleItemInput}
    {ps : List Product} {out : List Product × Product × SaleLineItem}
    (h : saleItemStep i item ps = .ok out) :
    ∃ p0, loadProductByIdentifier item.productId ps = some p0 ∧
      ¬item.productId = "" ∧ 0 < item.quantity ∧
      item.quantity ≤ p0.quantity ∧
      out = (updateProduct ps (saleUpdatedProduct item p0),
        saleUpdatedProduct item p0, saleLineItemOf item p0) := by
  unfold saleItemStep at h
  by_cases h1 : item.productId = ""
  · rw [if_pos h1] at h
    exact absurd h (by simp)
  · rw [if_neg h1] at h
    by_cases h2 : item.quantity ≤ 0
    · rw [if_pos h2] at h
      exact absurd h (by simp)
    · rw [if_neg h2] at h
      cases hl : loadProductByIdentifier item.productId ps with
      | none =>
        rw [hl] at h
        exact absurd h (by simp)
      | some p0 =>
        rw [hl] at h
        dsimp only at h
        by_cases h3 : p0.quantity < item.quantity
        · rw [if_pos h3] at h
          exact absurd h (by simp)
        · rw [if_neg h3] at h
          exact ⟨p0, rfl, h1, not_le.mp h2, not_lt.mp h3,
            (Except.ok.inj h).symm⟩

theorem purchaseItemStep_ok_elim {i : Nat} {item : PurchaseItemInput}
    {ps : List Product} {out : List Product × Product × PurchaseLineItem}
    (h : purchaseItemStep i item ps = .ok out) :
    ∃ p0, loadProductByIdentifier item.productId ps = some p0 ∧
      ¬item.productId = "" ∧ 0 < item.quantity ∧
      out = (updateProduct ps (purchaseUpdatedProduct item p0),
        purchaseUpdatedProduct item p0, purchaseLineItemOf item p0) := by
  unfold purchaseItemStep at h
  by_cases h1 : item.productId = ""
  · rw [if_pos h1] at h
    exact absurd h (by simp)
  · rw [if_neg h1] at h
    by_cases h2 : item.quantity ≤ 0
    · rw [if_pos h2] at h
      exact absurd h (by simp)
    · rw [if_neg h2] at h
      cases hl : loadProductByIdentifier item.productId ps with
      | none =>
        rw [hl] at h
        exact absurd h (by simp)
      | some p0 =>
        rw [hl] at h
        dsimp only at h
        exact ⟨p0, rfl, h1, not_le.mp h2, (Except.ok.inj h).symm⟩

theorem processSaleItems_cons (item : SaleItemInput)
    (rest : List SaleItemInput) (i : Nat) (ps : List Product) :
    processSaleItems (item :: rest) i ps =
      match saleItemStep i item ps with
      | .error e => (ps, .error e)
      | .ok (ps', up, line) =>
        match processSaleItems rest (i + 1) ps' with
        | (psF, .error e) => (psF, .error e)
        | (psF, .ok (ups, lines)) => (psF, .ok (up :: ups, line :: lines)) :=
  rfl

theorem processPurchaseItems_cons (item : PurchaseItemInput)
    (rest : List PurchaseItemInput) (i : Nat) (ps : List Product) :
    processPurchaseItems (item :: rest) i ps =
      match purchaseItemStep i item ps with
      | .error e => (ps, .error e)
      | .ok (ps', up, line) =>
        match processPurchaseItems rest (i + 1) ps' with
        | (psF, .error e) => (psF, .error e)
        | (psF, .ok (ups, lines)) => (psF, .ok (up :: ups, line :: lines)) :=
  rfl

theorem processSaleItems_nonneg :
    ∀ (its : List SaleItemInput) (i : Nat) (ps : List Product),
      (∀ q ∈ ps, 0 ≤ q.quantity) →
      ∀ q ∈ (processSaleItems its i ps).1, 0 ≤ q.quantity := by
  intro its
  induction its with
  | nil => intro i ps h; exact h
  | cons item rest ih =>
    intro i ps h
    rw [processSaleItems_cons]
    cases hstep : saleItemStep i item ps with
    | error e => exact h
    | ok t =>
      obtain ⟨ps', up, line⟩ := t
      obtain ⟨p0, hl, _, hq, hle, hout⟩ := saleItemStep_ok_elim hstep
      have hps' : ps' = updateProduct ps (saleUpdatedProduct item p0) :=
        congrArg Prod.fst hout
      have hnext : ∀ q ∈ ps', 0 ≤ q.quantity := by
        intro q hqmem
        rw [hps'] at hqmem
        rcases mem_updateProduct hqmem with rfl | hmem2
        · exact sub_nonneg.mpr hle
        · exact h q hmem2
      have hrec := ih (i + 1) ps' hnext
      dsimp only
      rcases hproc : processSaleItems rest (i + 1) ps' with ⟨psF, r⟩
      rw [hproc] at hrec
      cases r with
      | error e => exact hrec
      | ok pr =>
        obtain ⟨ups, lines⟩ := pr
        exact hrec

theorem processPurchaseItems_nonneg :
    ∀ (its : List PurchaseItemInput) (i : Nat) (ps : List Product),
      (∀ q ∈ ps, 0 ≤ q.quantity) →
      ∀ q ∈ (processPurchaseItems its i ps).1, 0 ≤ q.quantity := by
  intro its
  induction its with
  | nil => intro i ps h; exact h
  | cons item rest ih =>
    intro i ps h
    rw [processPurchaseItems_cons]
    cases hstep : purchaseItemStep i item ps with
    | error e => exact h
    | ok t =>
      obtain ⟨ps', up, line⟩ := t
      obtain ⟨p0, hl, _, hq, hout⟩ := purchaseItemStep_ok_elim hstep
      have hps' : ps' = updateProduct ps (purchaseUpdatedProduct item p0) :=
        congrArg Prod.fst hout
      have hnext : ∀ q ∈ ps', 0 ≤ q.quantity := by
        intro q hqmem
        rw [hps'] at hqmem
        rcases mem_updateProduct hqmem with rfl | hmem2
        · have h0 : 0 ≤ p0.quantity := h p0 (loadProduct_mem hl)
          have : (0 : Int) ≤ p0.quantity + item.quantity := by
            exact add_nonneg h0 (le_of_lt hq)
          exact this
        · exact h q hmem2
      have hrec := ih (i + 1) ps' hnext
      dsimp only
      rcases hproc : processPurchaseItems rest (i + 1) ps' with ⟨psF, r⟩
      rw [hproc] at hrec
      cases r with
      | error e => exact hrec
      | ok pr =>
        obtain ⟨ups, lines⟩ := pr
        exact hrec

theorem processSaleItems_frame :
    ∀ (its : List SaleItemInput) (i : Nat) (ps : List Product),
      (ps.map Product.mongoId).Nodup →
      (processSaleItems its i ps).1.map Product.mongoId =
          ps.map Product.mongoId ∧
      ∀ id, (((processSaleItems its i ps).1.find? fun q => q.mongoId = id).map
          productFrame) =
        ((ps.find? fun q => q.mongoId = id).map productFrame) := by
  intro its
  induction its with
  | nil => intro i ps _; exact ⟨rfl, fun _ => rfl⟩
  | cons item rest ih =>
    intro i ps hnd
    rw [processSaleItems_cons]
    cases hstep : saleItemStep i item ps with
    | error e => exact ⟨rfl, fun _ => rfl⟩
    | ok t =>
      obtain ⟨ps', up, line⟩ := t
      obtain ⟨p0, hl, _, _, _, hout⟩ := saleItemStep_ok_elim hstep
      have hmem : p0 ∈ ps := loadProduct_mem hl
      have hps' : ps' = updateProduct ps (saleUpdatedProduct item p0) :=
        congrArg Prod.fst hout
      have hmap : ps'.map Product.mongoId = ps.map Product.mongoId := by
        rw [hps']
        exact updateProduct_map_mongoId ps (saleUpdatedProduct item p0)
      have hnd' : (ps'.map Product.mongoId).Nodup := hmap ▸ hnd
      have hframe : ∀ id,
          ((ps'.find? fun q => q.mongoId = id).map productFrame) =
            ((ps.find? fun q => q.mongoId = id).map productFrame) := by
        intro id
        rw [hps']
        exact @find?_frame_updateProduct ps hnd p0 hmem
          (saleUpdatedProduct item p0) rfl rfl id
      have hrec := ih (i + 1) ps' hnd'
      dsimp only
      rcases hproc : processSaleItems rest (i + 1) ps' with ⟨psF, r⟩
      rw [hproc] at hrec
      cases r with
      | error e =>
        exact ⟨hrec.1.trans hmap, fun id => (hrec.2 id).trans (hframe id)⟩
      | ok pr =>
        obtain ⟨ups, lines⟩ := pr
        exact ⟨hrec.1.trans hmap, fun id => (hrec.2 id).trans (hframe id)⟩

theorem processPurchaseItems_frame :
    ∀ (its : List PurchaseItemInput) (i : Nat) (ps : List Product),
      (ps.map Product.mongoId).Nodup →
      (processPurchaseItems its i ps).1.map Product.mongoId =
          ps.map Product.mongoId ∧
      ∀ id, (((processPurchaseItems its i ps).1.find? fun q =>
          q.mongoId = id).map productFrame) =
        ((ps.find? fun q => q.mongoId = id).map productFrame) := by
  intro its
  induction its with
  | nil => intro i ps _; exact ⟨rfl, fun _ => rfl⟩
  | cons item rest ih =>
    intro i ps hnd
    rw [processPurchaseItems_cons]
    cases hstep : purchaseItemStep i item ps with
    | error e => exact ⟨rfl, fun _ => rfl⟩
    | ok t =>
      obtain ⟨ps', up, line⟩ := t
      obtain ⟨p0, hl, _, _, hout⟩ := purchaseItemStep_ok_elim hstep
      have hmem : p0 ∈ ps := loadProduct_mem hl
      have hps' : ps' = updateProduct ps (purchaseUpdatedProduct item p0) :=
        congrArg Prod.fst hout
      have hmap : ps'.map Product.mongoId = ps.map Product.mongoId := by
        rw [hps']
        exact updateProduct_map_mongoId ps (purchaseUpdatedProduct item p0)
      have hnd' : (ps'.map Product.mongoId).Nodup := hmap ▸ hnd
      have hframe : ∀ id,
          ((ps'.find? fun q => q.mongoId = id).map productFrame) =
            ((ps.find? fun q => q.mongoId = id).map productFrame) := by
        intro id
        rw [hps']
        exact @find?_frame_updateProduct ps hnd p0 hmem
          (purchaseUpdatedProduct item p0) rfl rfl id
      have hrec := ih (i + 1) ps' hnd'
      dsimp only
      rcases hproc : processPurchaseItems rest (i + 1) ps' with ⟨psF, r⟩
      rw [hproc] at hrec
      cases r with
      | error e =>
        exact ⟨hrec.1.trans hmap, fun id => (hrec.2 id).trans (hframe id)⟩
      | ok pr =>
        obtain ⟨ups, lines⟩ := pr
        exact ⟨hrec.1.trans hmap, fun id => (hrec.2 id).trans (hframe id)⟩

theorem processSaleItems_append_error :
    ∀ (xs : List SaleItemInput) {i : Nat} {ps ps' : List Product} {e : String},
      processSaleItems xs i ps = (ps', .error e) →
      ∀ ys, processSaleItems (xs ++ ys) i ps = (ps', .error e) := by
  intro xs
  induction xs with
  | nil =>
    intro i ps ps' e h ys
    exact absurd (congrArg Prod.snd h) (by simp [processSaleItems])
  | cons item rest ih =>
    intro i ps ps' e h ys
    rw [processSaleItems_cons] at h
    rw [List.cons_append, processSaleItems_cons]
    cases hstep : saleItemStep i item ps with
    | error e2 =>
      rw [hstep] at h
      exact h
    | ok t =>
      obtain ⟨ps1, up, line⟩ := t
      rw [hstep] at h
      dsimp only at h ⊢
      rcases hproc : processSaleItems rest (i + 1) ps1 with ⟨psF, r⟩
      rw [hproc] at h
      cases r with
      | error e3 =>
        have h1 : psF = ps' := congrArg Prod.fst h
        have h2 : e3 = e := by
          have := congrArg Prod.snd h
          simpa using this
        rw [ih hproc ys, h1, h2]
      | ok pr =>
        obtain ⟨ups, lines⟩ := pr
        exact absurd (congrArg Prod.snd h) (by simp)

theorem processSaleItems_append_ok :
    ∀ (xs : List SaleItemInput) {i : Nat} {ps ps' : List Product}
      {ups : List Product} {lines : List SaleLineItem},
      processSaleItems xs i ps = (ps', .ok (ups, lines)) →
      ∀ ys, processSaleItems (xs ++ ys) i ps =
        (match processSaleItems ys (i + xs.length) ps' with
         | (psF, .error e) => (psF, .error e)
         | (psF, .ok (ups2, lines2)) =>
             (psF, .ok (ups ++ ups2, lines ++ lines2))) := by
  intro xs
  induction xs with
  | nil =>
    intro i ps ps' ups lines h ys
    have hps : ps = ps' := congrArg Prod.fst h
    have hul : ups = [] ∧ lines = [] := by
      have := congrArg Prod.snd h
      simp only [processSaleItems] at this
      exact ⟨(Prod.mk.inj (Except.ok.inj this)).1.symm,
        (Prod.mk.inj (Except.ok.inj this)).2.symm⟩
    obtain ⟨hu, hl⟩ := hul
    subst hu; subst hl; subst hps
    rw [List.nil_append]
    rcases hproc : processSaleItems ys (i + 0) ps with ⟨psF, r⟩
    have hlen : i + ([] : List SaleItemInput).length = i + 0 := rfl
    rw [hlen, hproc]
    have hi : i + 0 = i := Nat.add_zero i
    rw [hi] at hproc
    rw [hproc]
    cases r with
    | error e => rfl
    | ok pr =>
      obtain ⟨ups2, lines2⟩ := pr
      simp
  | cons item rest ih =>
    intro i ps ps' ups lines h ys
    rw [processSaleItems_cons] at h
    rw [List.cons_append, processSaleItems_cons]
    cases hstep : saleItemStep i item ps with
    | error e2 =>
      rw [hstep] at h
      exact absurd (congrArg Prod.snd h) (by simp)
    | ok t =>
      obtain ⟨ps1, up, line⟩ := t
      rw [hstep] at h
      dsimp only at h ⊢
      rcases hproc : processSaleItems rest (i + 1) ps1 with ⟨psM, r⟩
      rw [hproc] at h
      cases r with
      | error e3 => exact absurd (congrArg Prod.snd h) (by simp)
      | ok pr =>
        obtain ⟨ups1, lines1⟩ := pr
        have hps' : psM = ps' := congrArg Prod.fst h
        have hsnd := congrArg Prod.snd h
        simp only [] at hsnd
        have hups : up :: ups1 = ups :=
          (Prod.mk.inj (Except.ok.inj hsnd)).1
        have hlines : line :: lines1 = lines :=
          (Prod.mk.inj (Except.ok.inj hsnd)).2
        subst hps'
        rw [ih hproc ys]
        have hlen : i + 1 + rest.length = i + (item :: rest).length := by
          simp [List.length_cons]
          omega
        rw [hlen]
        rcases hys : processSaleItems ys (i + (item :: rest).length) psM
          with ⟨psF, ry⟩
        cases ry with
        | error e4 => rfl
        | ok pry =>
          obtain ⟨ups2, lines2⟩ := pry
          dsimp only
          rw [← hups, ← hlines]
          simp

theorem processPurchaseItems_append_ok :
    ∀ (xs : List PurchaseItemInput) {i : Nat} {ps ps' : List Product}
      {ups : List Product} {lines : List PurchaseLineItem},
      processPurchaseItems xs i ps = (ps', .ok (ups, lines)) →
      ∀ ys, processPurchaseItems (xs ++ ys) i ps =
        (match processPurchaseItems ys (i + xs.length) ps' with
         | (psF, .error e) => (psF, .error e)
         | (psF, .ok (ups2, lines2)) =>
             (psF, .ok (ups ++ ups2, lines ++ lines2))) := by
  intro xs
  induction xs with
  | nil =>
    intro i ps ps' ups lines h ys
    have hps : ps = ps' := congrArg Prod.fst h
    have hul : ups = [] ∧ lines = [] := by
      have := congrArg Prod.snd h
      simp only [processPurchaseItems] at this
      exact ⟨(Prod.mk.inj (Except.ok.inj this)).1.symm,
        (Prod.mk.inj (Except.ok.inj this)).2.symm⟩
    obtain ⟨hu, hl⟩ := hul
    subst hu; subst hl; subst hps
    rw [List.nil_append]
    rcases hproc : processPurchaseItems ys (i + 0) ps with ⟨psF, r⟩
    have hlen : i + ([] : List PurchaseItemInput).length = i + 0 := rfl
    rw [hlen, hproc]
    have hi : i + 0 = i := Nat.add_zero i
    rw [hi] at hproc
    rw [hproc]
    cases r with
    | error e => rfl
    | ok pr =>
      obtain ⟨ups2, lines2⟩ := pr
      simp
  | cons item rest ih =>
    intro i ps ps' ups lines h ys
    rw [processPurchaseItems_cons] at h
    rw [List.cons_append, processPurchaseItems_cons]
    cases hstep : purchaseItemStep i item ps with
    | error e2 =>
      rw [hstep] at h
      exact absurd (congrArg Prod.snd h) (by simp)
    | ok t =>
      obtain ⟨ps1, up, line⟩ := t
      rw [hstep] at h
      dsimp only at h ⊢
      rcases hproc : processPurchaseItems rest (i + 1) ps1 with ⟨psM, r⟩
      rw [hproc] at h
      cases r with
      | error e3 => exact absurd (congrArg Prod.snd h) (by simp)
      | ok pr =>
        obtain ⟨ups1, lines1⟩ := pr
        have hps' : psM = ps' := congrArg Prod.fst h
        have hsnd := congrArg Prod.snd h
        simp only [] at hsnd
        have hups : up :: ups1 = ups :=
          (Prod.mk.inj (Except.ok.inj hsnd)).1
        have hlines : line :: lines1 = lines :=
          (Prod.mk.inj (Except.ok.inj hsnd)).2
        subst hps'
        rw [ih hproc ys]
        have hlen : i + 1 + rest.length = i + (item :: rest).length := by
          simp [List.length_cons]
          omega
        rw [hlen]
        rcases hys : processPurchaseItems ys (i + (item :: rest).length) psM
          with ⟨psF, ry⟩
        cases ry with
        | error e4 => rfl
        | ok pry =>
          obtain ⟨ups2, lines2⟩ := pry
          dsimp only
          rw [← hups, ← hlines]
          simp

theorem itemsQtySum_cons (id : String) (item : PurchaseItemInput)
    (rest : List PurchaseItemInput) (ps : List Product) :
    itemsQtySum id (item :: rest) ps =
      (if resolveId item.productId ps = some id then item.quantity else 0) +
        itemsQtySum id rest ps := by
  unfold itemsQtySum
  by_cases h : resolveId item.productId ps = some id
  · simp [List.filter_cons, h]
  · simp [List.filter_cons, h]

theorem itemsQtySum_updateProduct {ps : List Product}
    (hnd : (ps.map Product.mongoId).Nodup) {p0 : Product} (hmem : p0 ∈ ps)
    {newp : Product} (hid : newp.mongoId = p0.mongoId)
    (hpid : newp.productId = p0.productId) (hsku : newp.sku = p0.sku)
    (id : String) (rest : List PurchaseItemInput) :
    itemsQtySum id rest (updateProduct ps newp) = itemsQtySum id rest ps := by
  unfold itemsQtySum
  have hfilter :
      (rest.filter fun it => resolveId it.productId (updateProduct ps newp) =
        some id) = rest.filter fun it => resolveId it.productId ps = some id := by
    apply List.filter_congr
    intro it _
    rw [resolveId_updateProduct hnd hmem hid hpid hsku]
  rw [hfilter]

theorem processPurchaseItems_qtyOf :
    ∀ (its : List PurchaseItemInput) (i : Nat) (ps psF : List Product)
      (ups : List Product) (lines : List PurchaseLineItem),
      (ps.map Product.mongoId).Nodup →
      processPurchaseItems its i ps = (psF, .ok (ups, lines)) →
      ∀ id, qtyOf id psF = qtyOf id ps + itemsQtySum id its ps := by
  intro its
  induction its with
  | nil =>
    intro i ps psF ups lines _ h id
    have hps : ps = psF := congrArg Prod.fst h
    subst hps
    show qtyOf id ps = qtyOf id ps + 0
    omega
  | cons item rest ih =>
    intro i ps psF ups lines hnd h id
    rw [processPurchaseItems_cons] at h
    cases hstep : purchaseItemStep i item ps with
    | error e =>
      rw [hstep] at h
      exact absurd (congrArg Prod.snd h) (by simp)
    | ok t =>
      obtain ⟨ps1, up, line⟩ := t
      rw [hstep] at h
      dsimp only at h
      obtain ⟨p0, hl, _, _, hout⟩ := purchaseItemStep_ok_elim hstep
      have hmem : p0 ∈ ps := loadProduct_mem hl
      have hps1 : ps1 = updateProduct ps (purchaseUpdatedProduct item p0) :=
        congrArg Prod.fst hout
      have hnd1 : (ps1.map Product.mongoId).Nodup := by
        rw [hps1, updateProduct_map_mongoId]
        exact hnd
      rcases hproc : processPurchaseItems rest (i + 1) ps1 with ⟨psM, r⟩
      rw [hproc] at h
      cases r with
      | error e => exact absurd (congrArg Prod.snd h) (by simp)
      | ok pr =>
        obtain ⟨ups1, lines1⟩ := pr
        have hpsF : psM = psF := congrArg Prod.fst h
        subst hpsF
        have hrec := ih (i + 1) ps1 psM ups1 lines1 hnd1 hproc id
        have hsum1 : itemsQtySum id rest ps1 = itemsQtySum id rest ps := by
          rw [hps1]
          exact @itemsQtySum_updateProduct ps hnd p0 hmem
            (purchaseUpdatedProduct item p0) rfl rfl rfl id rest
        have hq1 : qtyOf id ps1 =
            if p0.mongoId = id then (purchaseUpdatedProduct item p0).quantity
            else qtyOf id ps := by
          rw [hps1]
          exact @qtyOf_updateProduct ps hnd p0 hmem
            (purchaseUpdatedProduct item p0) rfl id
        have hres : resolveId item.productId ps = some p0.mongoId := by
          unfold resolveId
          rw [hl]
          rfl
        rw [itemsQtySum_cons, hres]
        by_cases hc : p0.mongoId = id
        · have hqps : qtyOf id ps = p0.quantity := by
            unfold qtyOf
            rw [← hc, find?_mongoId_self hnd hmem]
            rfl
          have hup : (purchaseUpdatedProduct item p0).quantity =
              p0.quantity + item.quantity := rfl
          rw [hrec, hsum1, hq1, if_pos hc, hup, hqps, if_pos (by rw [hc])]
          omega
        · have hcond : ¬(some p0.mongoId = some id) := by
            intro hcc
            exact hc (Option.some.inj hcc)
          rw [hrec, hsum1, hq1, if_neg hc, if_neg hcond]
          omega

theorem foldl_add_map_sum {α : Type} (f : α → ℚ) :
    ∀ (l : List α) (a : ℚ),
      l.foldl (fun s x => s + f x) a = a + (l.map f).sum := by
  intro l
  induction l with
  | nil => intro a; simp
  | cons x xs ih =>
    intro a
    rw [List.foldl_cons, ih, List.map_cons, List.sum_cons, add_assoc]

theorem foldl_stock_counts :
    ∀ (products : List Product) (a b : Nat),
      products.foldl
        (fun acc p =>
          if p.quantity ≤ 0 then (acc.1, acc.2 + 1)
          else if p.quantity ≤ p.reorderPoint then (acc.1 + 1, acc.2)
          else acc) (a, b) =
      (a + (products.filter fun p =>
          0 < p.quantity ∧ p.quantity ≤ p.reorderPoint).length,
       b + (products.filter fun p => p.quantity ≤ 0).length) := by
  intro products
  induction products with
  | nil => intro a b; simp
  | cons p ps ih =>
    intro a b
    rw [List.foldl_cons, List.filter_cons, List.filter_cons]
    dsimp only
    by_cases h1 : p.quantity ≤ 0
    · have hlow : ¬(0 < p.quantity ∧ p.quantity ≤ p.reorderPoint) := by
        intro hcc
        omega
      rw [if_pos h1, ih,
        if_neg (show ¬(decide (0 < p.quantity ∧ p.quantity ≤
          p.reorderPoint) = true) by simp [hlow]),
        if_pos (show decide (p.quantity ≤ 0) = true by simp [h1]),
        List.length_cons]
      simp only [Prod.mk.injEq]
      constructor <;> first | trivial | omega
    · by_cases h2 : p.quantity ≤ p.reorderPoint
      · have hlow : 0 < p.quantity ∧ p.quantity ≤ p.reorderPoint :=
          ⟨by omega, h2⟩
        rw [if_neg h1, if_pos h2, ih,
          if_pos (show decide (0 < p.quantity ∧ p.quantity ≤
            p.reorderPoint) = true by simp [hlow]),
          if_neg (show ¬(decide (p.quantity ≤ 0) = true) by simp [h1]),
          List.length_cons]
        simp only [Prod.mk.injEq]
        constructor <;> first | trivial | omega
      · have hlow : ¬(0 < p.quantity ∧ p.quantity ≤ p.reorderPoint) := by
          intro hcc
          exact h2 hcc.2
        rw [if_neg h1, if_neg h2, ih,
          if_neg (show ¬(decide (0 < p.quantity ∧ p.quantity ≤
            p.reorderPoint) = true) by simp [hlow]),
          if_neg (show ¬(decide (p.quantity ≤ 0) = true) by simp [h1])]

theorem postSale_reduce {req : SaleRequest} {db : DB}
    {items : List SaleItemInput} (hbill : ¬req.billId = "")
    (hitems : req.items = some items) (hne : items ≠ []) :
    postSale req db =
      match persistSale req items db with
      | (db', .error e) => (500, db', .failed e)
      | (db', .ok (sale, ups)) =>
          (201, (recalculateDashboardStats db').1,
            .created sale ups (some (recalculateDashboardStats db').2)) := by
  unfold postSale
  rw [if_neg hbill, hitems]
  cases items with
  | nil => exact absurd rfl hne
  | cons x xs => rfl

/-! ## The claims -/

/-- C1: a sale batch with an item requesting more than the resolved
product's on-hand quantity fails with the insufficient-stock error and no
Sale is persisted; the same batch with that item's quantity reduced to
exactly the on-hand amount (provided the rest of the batch processes, as
the claim presupposes) succeeds and persists a Sale. -/
theorem sale_insufficient_stock_rejects_and_exact_amount_succeeds
    (db : DB) (req : SaleRequest) (pre suf : List SaleItemInput)
    (item : SaleItemInput) (ps' ups : List Product)
    (lines : List SaleLineItem) (p : Product)
    (hbill : ¬req.billId = "")
    (hitems : req.items = some (pre ++ item :: suf))
    (hpre : processSaleItems pre 0 db.products = (ps', .ok (ups, lines)))
    (hpid : ¬item.productId = "")
    (hload : loadProductByIdentifier item.productId ps' = some p)
    (hover : p.quantity < item.quantity)
    (hpos : 0 < p.quantity)
    (psF ups2 : List Product) (lines2 : List SaleLineItem)
    (hsuf : processSaleItems suf (pre.length + 1)
        (updateProduct ps'
          (saleUpdatedProduct { item with quantity := p.quantity } p)) =
      (psF, .ok (ups2, lines2))) :
    ((postSale req db).1 = 500 ∧
     (postSale req db).2.2 =
       .failed ("Insufficient stock for product " ++ p.name) ∧
     (postSale req db).2.1.sales = db.sales) ∧
    ((postSale { req with
        items := some (pre ++ { item with quantity := p.quantity } :: suf) }
        db).1 = 201 ∧
     ∃ sale, (postSale { req with
        items := some (pre ++ { item with quantity := p.quantity } :: suf) }
        db).2.1.sales = db.sales ++ [sale]) := by
  have hqpos : 0 < item.quantity := lt_trans hpos hover
  have hstep_bad : saleItemStep pre.length item ps' =
      .error ("Insufficient stock for product " ++ p.name) := by
    unfold saleItemStep
    rw [if_neg hpid, if_neg (not_le.mpr hqpos), hload]
    dsimp only
    rw [if_pos hover]
  have hloop_bad : processSaleItems (pre ++ item :: suf) 0 db.products =
      (ps', .error ("Insufficient stock for product " ++ p.name)) := by
    rw [processSaleItems_append_ok pre hpre (item :: suf), Nat.zero_add,
      processSaleItems_cons, hstep_bad]
  have hstep_ok : saleItemStep pre.length
      { item with quantity := p.quantity } ps' =
      .ok (updateProduct ps'
            (saleUpdatedProduct { item with quantity := p.quantity } p),
          saleUpdatedProduct { item with quantity := p.quantity } p,
          saleLineItemOf { item with quantity := p.quantity } p) := by
    unfold saleItemStep
    dsimp only
    rw [if_neg hpid, if_neg (not_le.mpr hpos), hload]
    dsimp only
    rw [if_neg (lt_irrefl p.quantity)]
  have hloop_ok : processSaleItems
      (pre ++ { item with quantity := p.quantity } :: suf) 0 db.products =
      (psF, .ok
        (ups ++ saleUpdatedProduct { item with quantity := p.quantity } p
          :: ups2,
         lines ++ saleLineItemOf { item with quantity := p.quantity } p
          :: lines2)) := by
    rw [processSaleItems_append_ok pre hpre _, Nat.zero_add,
      processSaleItems_cons, hstep_ok]
    dsimp only
    rw [hsuf]
  have hne1 : pre ++ item :: suf ≠ [] := by
    cases pre <;> simp
  have hne2 : pre ++ { item with quantity := p.quantity } :: suf ≠ [] := by
    cases pre <;> simp
  constructor
  · rw [postSale_reduce hbill hitems hne1]
    unfold persistSale
    rw [hloop_bad]
    exact ⟨rfl, rfl, rfl⟩
  · rw [@postSale_reduce
      { req with
        items := some (pre ++ { item with quantity := p.quantity } :: suf) }
      db (pre ++ { item with quantity := p.quantity } :: suf) hbill rfl hne2]
    unfold persistSale
    rw [hloop_ok]
    dsimp only
    exact ⟨rfl,
      ⟨{ billId := normalizeString req.billId
         customerName := normalizeString req.customerName
         subtotal := req.subtotal
         tax := req.tax
         total := req.total
         items := lines ++ saleLineItemOf
           { item with quantity := p.quantity } p :: lines2 }, rfl⟩⟩

/-- A concrete product used by the witnesses. -/
def sampleProduct : Product :=
  { mongoId := "507f1f77bcf86cd799439011", name := "Widget", sku := "SKU-1"
    productId := "SKU-1", price := 10, quantity := 5, reorderPoint := 2
    size := "A4", gsm := "80", image := "" }

/-- A concrete store used by the witnesses. -/
def sampleDB : DB :=
  { products := [sampleProduct], sales := [], purchases := [],
    dashboard := none }

/-- A sale item requesting more than the 5 on hand. -/
def overItem : SaleItemInput :=
  { productId := "SKU-1", quantity := 7, price := 0, pricePerQuantity := 0 }

/-- A sale request carrying overItem. -/
def saleReqOver : SaleRequest :=
  { billId := "B1", customerName := "C", subtotal := 0, tax := 0, total := 0
    items := some [overItem] }

/-- The same request with the quantity reduced to the 5 on hand. -/
def saleReqExact : SaleRequest :=
  { saleReqOver with
    items := some [{ overItem with quantity := sampleProduct.quantity }] }

/-- Witness for C1: the 7-of-5 sale is rejected with the insufficient-stock
message and no Sale is stored; the 5-of-5 sale succeeds and stores one. -/
theorem sale_insufficient_stock_witness :
    ((postSale saleReqOver sampleDB).1 = 500 ∧
     (postSale saleReqOver sampleDB).2.2 =
       .failed ("Insufficient stock for product " ++ sampleProduct.name) ∧
     (postSale saleReqOver sampleDB).2.1.sales = sampleDB.sales) ∧
    ((postSale saleReqExact sampleDB).1 = 201 ∧
     ∃ sale, (postSale saleReqExact sampleDB).2.1.sales =
       sampleDB.sales ++ [sale]) :=
  sale_insufficient_stock_rejects_and_exact_amount_succeeds sampleDB
    saleReqOver [] [] overItem [sampleProduct] [] [] sampleProduct
    (by decide) rfl rfl (by decide) (by decide) (by decide) (by decide)
    (updateProduct [sampleProduct] (saleUpdatedProduct
      { overItem with quantity := sampleProduct.quantity } sampleProduct))
    [] [] rfl

/-- C2: when item i of a sale batch fails after items 0..i-1 succeeded, the
mutations already applied to the earlier items' products remain in the
store (the sale path has no transaction) and no Sale record is created. -/
theorem sale_item_failure_keeps_prior_mutations_and_no_sale
    (db : DB) (req : SaleRequest) (pre suf : List SaleItemInput)
    (bad : SaleItemInput) (ps' ups : List Product)
    (lines : List SaleLineItem) (e : String)
    (hbill : ¬req.billId = "")
    (hitems : req.items = some (pre ++ bad :: suf))
    (hpre : processSaleItems pre 0 db.products = (ps', .ok (ups, lines)))
    (hbad : saleItemStep pre.length bad ps' = .error e) :
    postSale req db = (500, { db with products := ps' }, .failed e) ∧
    (postSale req db).2.1.sales = db.sales ∧
    (postSale req db).2.1.products = ps' := by
  have hloop : processSaleItems (pre ++ bad :: suf) 0 db.products =
      (ps', .error e) := by
    rw [processSaleItems_append_ok pre hpre _, Nat.zero_add,
      processSaleItems_cons, hbad]
  have hne : pre ++ bad :: suf ≠ [] := by
    cases pre <;> simp
  rw [postSale_reduce hbill hitems hne]
  unfold persistSale
  rw [hloop]
  exact ⟨rfl, rfl, rfl⟩

/-- A first sale item that succeeds, deducting 3 of the 5 on hand. -/
def saleItemOk3 : SaleItemInput :=
  { productId := "SKU-1", quantity := 3, price := 0, pricePerQuantity := 0 }

/-- A second sale item whose identifier resolves to nothing. -/
def saleItemUnknown : SaleItemInput :=
  { productId := "NOPE", quantity := 1, price := 0, pricePerQuantity := 0 }

/-- A sale batch that fails at index 1 after item 0 was applied. -/
def saleReqFailing : SaleRequest :=
  { billId := "B2", customerName := "C", subtotal := 0, tax := 0, total := 0
    items := some [saleItemOk3, saleItemUnknown] }

/-- The store contents after item 0 of saleReqFailing was applied. -/
def mutatedProducts : List Product :=
  updateProduct [sampleProduct] (saleUpdatedProduct saleItemOk3 sampleProduct)

/-- Witness for C2: after the not-found failure at index 1, the store keeps
item 0's deduction (quantity 5 → 2) and no Sale is recorded. -/
theorem sale_item_failure_witness :
    (postSale saleReqFailing sampleDB =
      (500, { sampleDB with products := mutatedProducts },
       .failed ("Product not found for id " ++ saleItemUnknown.productId)) ∧
     (postSale saleReqFailing sampleDB).2.1.sales = sampleDB.sales ∧
     (postSale saleReqFailing sampleDB).2.1.products = mutatedProducts) ∧
    qtyOf sampleProduct.mongoId
      (postSale saleReqFailing sampleDB).2.1.products = 2 :=
  ⟨sale_item_failure_keeps_prior_mutations_and_no_sale sampleDB
    saleReqFailing [saleItemOk3] [] saleItemUnknown mutatedProducts
    [saleUpdatedProduct saleItemOk3 sampleProduct]
    [saleLineItemOf saleItemOk3 sampleProduct]
    ("Product not found for id " ++ saleItemUnknown.productId)
    (by decide) rfl rfl rfl, by decide⟩

/-- C3: starting from a store of nonnegative quantities, neither the sale
route (which deducts only after the stock check, for positive quantities)
nor the purchase route (which only adds positive quantities) can drive any
product's quantity negative, whatever the request and however the
transaction flags are set. -/
theorem quantities_stay_nonnegative
    (db : DB) (hnn : ∀ q ∈ db.products, 0 ≤ q.quantity) :
    (∀ req : SaleRequest,
      ∀ q ∈ (postSale req db).2.1.products, 0 ≤ q.quantity) ∧
    (∀ (tR cU tX : Bool) (req : PurchaseRequest),
      ∀ q ∈ (postPurchase tR cU tX req db).2.1.products, 0 ≤ q.quantity) := by
  constructor
  · intro req
    unfold postSale
    by_cases hb : req.billId = ""
    · rw [if_pos hb]
      exact hnn
    · rw [if_neg hb]
      cases hit : req.items with
      | none => exact hnn
      | some items =>
        cases items with
        | nil => exact hnn
        | cons x xs =>
          dsimp only
          unfold persistSale
          have hres := processSaleItems_nonneg (x :: xs) 0 db.products hnn
          rcases hproc : processSaleItems (x :: xs) 0 db.products with ⟨ps', r⟩
          rw [hproc] at hres
          cases r with
          | error e => exact hres
          | ok pr =>
            obtain ⟨ups, lines⟩ := pr
            exact hres
  · intro tR cU tX req
    unfold postPurchase
    by_cases hb : req.billId = ""
    · rw [if_pos hb]
      exact hnn
    · rw [if_neg hb]
      cases hit : req.items with
      | none => exact hnn
      | some items =>
        cases items with
        | nil => exact hnn
        | cons x xs =>
          dsimp only
          have hres := processPurchaseItems_nonneg (x :: xs) 0 db.products hnn
          by_cases hS : (tR && cU) = true
          · rw [if_pos hS]
            by_cases hX : tX = true
            · rw [if_pos hX]
              cases hstep : purchaseItemStep 0 x db.products with
              | error e => exact hnn
              | ok t =>
                obtain ⟨ps1, up, line⟩ := t
                dsimp only
                unfold persistPurchase
                rcases hproc : processPurchaseItems (x :: xs) 0 db.products
                  with ⟨ps', r⟩
                rw [hproc] at hres
                cases r with
                | error e => exact hres
                | ok pr =>
                  obtain ⟨ups, lines⟩ := pr
                  exact hres
            · rw [if_neg hX]
              unfold persistPurchase
              rcases hproc : processPurchaseItems (x :: xs) 0 db.products
                with ⟨ps', r⟩
              rw [hproc] at hres
              cases r with
              | error e => exact hnn
              | ok pr =>
                obtain ⟨ups, lines⟩ := pr
                exact hres
          · rw [if_neg hS]
            unfold persistPurchase
            rcases hproc : processPurchaseItems (x :: xs) 0 db.products
              with ⟨ps', r⟩
            rw [hproc] at hres
            cases r with
            | error e => exact hres
            | ok pr =>
              obtain ⟨ups, lines⟩ := pr
              exact hres

/-- A purchase item adding 3 units of SKU-1. -/
def purchaseItem3 : PurchaseItemInput :=
  { productId := "SKU-1", quantity := 3, price := 0 }

/-- The sample product after purchaseItem3 is applied. -/
def up1 : Product := purchaseUpdatedProduct purchaseItem3 sampleProduct

/-- A purchase request carrying purchaseItem3. -/
def purchaseReq3 : PurchaseRequest :=
  { billId := "PB1", supplierName := "", subtotal := 0, tax := 0, total := 0
    items := some [purchaseItem3] }

/-- Witness for C3 on the sample store, a sale and a purchase. -/
theorem quantities_stay_nonnegative_witness :
    (∀ q ∈ sampleDB.products, 0 ≤ q.quantity) ∧
    (∀ q ∈ (postSale saleReqOver sampleDB).2.1.products, 0 ≤ q.quantity) ∧
    (∀ q ∈ (postPurchase true true true purchaseReq3 sampleDB).2.1.products,
      0 ≤ q.quantity) :=
  ⟨by decide,
   (quantities_stay_nonnegative sampleDB (by decide)).1 saleReqOver,
   (quantities_stay_nonnegative sampleDB (by decide)).2 true true true
     purchaseReq3⟩

/-- A sale item supplying price 5 and pricePerQuantity 7 for quantity 2. -/
def ppqItem : SaleItemInput :=
  { productId := "SKU-1", quantity := 2, price := 5, pricePerQuantity := 7 }

/-- C4 as stated is false: with a positive pricePerQuantity the snapshot's
total is pricePerQuantity * quantity (7 * 2 = 14), not the effective unit
price times the quantity (5 * 2 = 10). -/
theorem sale_line_total_counterexample :
    ((saleItemStep 0 ppqItem [sampleProduct]).toOption.map
      fun r => (r.2.2.price, r.2.2.total)) = some (5, 14) ∧
    ¬((5 : ℚ) * (2 : ℚ) = 14) := by
  constructor
  · norm_num +decide [saleItemStep, saleLineItemOf, saleEffectivePrice,
      saleUpdatedProduct, updateProduct, loadProductByIdentifier,
      normalizeString, toUpperString, trimChars, isSpaceChar, isHex24,
      ppqItem, sampleProduct, Except.toOption]
  · norm_num

/-- C4 (amended): the snapshot's price is the effective unit price (the
supplied price when > 0, else the product's current stored price); its
total is that effective price times the quantity only when no positive
pricePerQuantity was supplied — a positive pricePerQuantity is used as the
per-unit factor of the total instead. -/
theorem sale_line_snapshot_price_and_total
    (i : Nat) (item : SaleItemInput) (ps : List Product) (p : Product)
    (hpid : ¬item.productId = "") (hq : 0 < item.quantity)
    (hload : loadProductByIdentifier item.productId ps = some p)
    (hstock : ¬p.quantity < item.quantity) :
    saleItemStep i item ps =
      .ok (updateProduct ps (saleUpdatedProduct item p),
           saleUpdatedProduct item p, saleLineItemOf item p) ∧
    (saleLineItemOf item p).price =
      (if item.price > 0 then item.price else p.price) ∧
    (saleLineItemOf item p).total =
      (if item.pricePerQuantity > 0 then item.pricePerQuantity
       else saleEffectivePrice item p) * (item.quantity : ℚ) ∧
    (item.pricePerQuantity ≤ 0 →
      (saleLineItemOf item p).total =
        (if item.price > 0 then item.price else p.price) *
          (item.quantity : ℚ)) := by
  refine ⟨?_, rfl, rfl, ?_⟩
  · unfold saleItemStep
    rw [if_neg hpid, if_neg (not_le.mpr hq), hload]
    dsimp only
    rw [if_neg hstock]
  · intro hppq
    show (if item.pricePerQuantity > 0 then item.pricePerQuantity
      else saleEffectivePrice item p) * (item.quantity : ℚ) = _
    rw [if_neg (not_lt.mpr hppq)]
    rfl

/-- Witness for the amended C4 at the concrete pricePerQuantity item. -/
theorem sale_line_snapshot_witness :
    saleItemStep 0 ppqItem [sampleProduct] =
      .ok (updateProduct [sampleProduct]
            (saleUpdatedProduct ppqItem sampleProduct),
           saleUpdatedProduct ppqItem sampleProduct,
           saleLineItemOf ppqItem sampleProduct) ∧
    (saleLineItemOf ppqItem sampleProduct).price =
      (if ppqItem.price > 0 then ppqItem.price else sampleProduct.price) ∧
    (saleLineItemOf ppqItem sampleProduct).total =
      (if ppqItem.pricePerQuantity > 0 then ppqItem.pricePerQuantity
       else saleEffectivePrice ppqItem sampleProduct) *
        (ppqItem.quantity : ℚ) ∧
    (ppqItem.pricePerQuantity ≤ 0 →
      (saleLineItemOf ppqItem sampleProduct).total =
        (if ppqItem.price > 0 then ppqItem.price else sampleProduct.price) *
          (ppqItem.quantity : ℚ)) :=
  sale_line_snapshot_price_and_total 0 ppqItem [sampleProduct] sampleProduct
    (by decide) (by decide) (by decide) (by decide)

/-- A sale item with no productId. -/
def noIdItem : SaleItemInput :=
  { productId := "", quantity := 1, price := 0, pricePerQuantity := 0 }

/-- A sale request whose only item is missing its productId. -/
def badItemSaleReq : SaleRequest :=
  { billId := "B3", customerName := "", subtotal := 0, tax := 0, total := 0
    items := some [noIdItem] }

/-- C5 as stated is false: a request with a valid billId and items array
whose item is missing productId is answered with status 500 (the thrown
persistence error), not 400. -/
theorem validation_status_counterexample :
    (postSale badItemSaleReq sampleDB).1 = 500 ∧
    ¬((postSale badItemSaleReq sampleDB).1 = 400) := by
  decide

/-- C5 (amended): batch-level validation failures (missing billId,
missing or empty items array) are rejected with status 400 and no product
mutation is attempted. An invalid item field (missing productId or
quantity ≤ 0), at any position in the batch, is thrown inside
persistSale/persistPurchase and surfaces as status 500 with no
Sale/Purchase record created; the mutations of the earlier items remain
applied on the sale route and on the non-transactional and
rejected-transaction purchase paths, while a purchase running inside a
working transaction rolls them back on abort. -/
theorem request_validation_statuses
    (db : DB) (sreq : SaleRequest) (preq : PurchaseRequest) (tR cU tX : Bool) :
    (sreq.billId = "" →
      postSale sreq db = (400, db, .failed "billId required")) ∧
    (¬sreq.billId = "" → sreq.items = none →
      postSale sreq db = (400, db, .failed "items array required")) ∧
    (¬sreq.billId = "" → sreq.items = some [] →
      postSale sreq db = (400, db, .failed "items array required")) ∧
    (∀ (pre suf : List SaleItemInput) (bad : SaleItemInput)
      (ps' ups : List Product) (lines : List SaleLineItem),
      ¬sreq.billId = "" → sreq.items = some (pre ++ bad :: suf) →
      processSaleItems pre 0 db.products = (ps', .ok (ups, lines)) →
      (bad.productId = "" ∨ bad.quantity ≤ 0) →
      (postSale sreq db).1 = 500 ∧
      (postSale sreq db).2.1.products = ps' ∧
      (postSale sreq db).2.1.sales = db.sales) ∧
    (preq.billId = "" →
      postPurchase tR cU tX preq db = (400, db, .failed "billId required")) ∧
    (¬preq.billId = "" → preq.items = none →
      postPurchase tR cU tX preq db =
        (400, db, .failed "items array required")) ∧
    (¬preq.billId = "" → preq.items = some [] →
      postPurchase tR cU tX preq db =
        (400, db, .failed "items array required")) ∧
    (∀ (pre suf : List PurchaseItemInput) (bad : PurchaseItemInput)
      (ps' ups : List Product) (lines : List PurchaseLineItem),
      ¬preq.billId = "" → preq.items = some (pre ++ bad :: suf) →
      processPurchaseItems pre 0 db.products = (ps', .ok (ups, lines)) →
      (bad.productId = "" ∨ bad.quantity ≤ 0) →
      (postPurchase tR cU tX preq db).1 = 500 ∧
      (postPurchase tR cU tX preq db).2.1.purchases = db.purchases ∧
      ((tR && cU) = false ∨ tX = true →
        (postPurchase tR cU tX preq db).2.1 = { db with products := ps' }) ∧
      ((tR && cU) = true → tX = false →
        (postPurchase tR cU tX preq db).2.1 = db)) := by
  refine ⟨?_, ?_, ?_, ?_, ?_, ?_, ?_, ?_⟩
  · intro h
    unfold postSale
    rw [if_pos h]
  · intro hb hn
    unfold postSale
    rw [if_neg hb, hn]
  · intro hb hn
    unfold postSale
    rw [if_neg hb, hn]
  · intro pre suf bad ps' ups lines hb hn hpre hbad
    have hstep : ∃ e, saleItemStep pre.length bad ps' = .error e := by
      rcases hbad with h | h
      · exact ⟨_, by unfold saleItemStep; rw [if_pos h]⟩
      · by_cases hp : bad.productId = ""
        · exact ⟨_, by unfold saleItemStep; rw [if_pos hp]⟩
        · exact ⟨_, by unfold saleItemStep; rw [if_neg hp, if_pos h]⟩
    obtain ⟨e, he⟩ := hstep
    have hloop : processSaleItems (pre ++ bad :: suf) 0 db.products =
        (ps', .error e) := by
      rw [processSaleItems_append_ok pre hpre _, Nat.zero_add,
        processSaleItems_cons, he]
    rw [postSale_reduce hb hn (by cases pre <;> simp)]
    unfold persistSale
    rw [hloop]
    exact ⟨rfl, rfl, rfl⟩
  · intro h
    unfold postPurchase
    rw [if_pos h]
  · intro hb hn
    unfold postPurchase
    rw [if_neg hb, hn]
  · intro hb hn
    unfold postPurchase
    rw [if_neg hb, hn]
  · intro pre suf bad ps' ups lines hb hn hpre hbad
    have hstep : ∃ e, purchaseItemStep pre.length bad ps' = .error e := by
      rcases hbad with h | h
      · exact ⟨_, by unfold purchaseItemStep; rw [if_pos h]⟩
      · by_cases hp : bad.productId = ""
        · exact ⟨_, by unfold purchaseItemStep; rw [if_pos hp]⟩
        · exact ⟨_, by unfold purchaseItemStep; rw [if_neg hp, if_pos h]⟩
    obtain ⟨e, he⟩ := hstep
    have hloop : processPurchaseItems (pre ++ bad :: suf) 0 db.products =
        (ps', .error e) := by
      rw [processPurchaseItems_append_ok pre hpre _, Nat.zero_add,
        processPurchaseItems_cons, he]
    suffices hmain :
        (((tR && cU) = false ∨ tX = true) →
          postPurchase tR cU tX preq db =
            (500, { db with products := ps' }, .failed e)) ∧
        ((tR && cU) = true → tX = false →
          postPurchase tR cU tX preq db = (500, db, .failed e)) by
      have hstatus : (postPurchase tR cU tX preq db).1 = 500 := by
        rcases Bool.eq_false_or_eq_true (tR && cU) with hS | hS
        · rcases Bool.eq_false_or_eq_true tX with hX | hX
          · rw [hmain.1 (Or.inr hX)]
          · rw [hmain.2 hS hX]
        · rw [hmain.1 (Or.inl hS)]
      have hpurch : (postPurchase tR cU tX preq db).2.1.purchases =
          db.purchases := by
        rcases Bool.eq_false_or_eq_true (tR && cU) with hS | hS
        · rcases Bool.eq_false_or_eq_true tX with hX | hX
          · rw [hmain.1 (Or.inr hX)]
          · rw [hmain.2 hS hX]
        · rw [hmain.1 (Or.inl hS)]
      exact ⟨hstatus, hpurch,
        fun hOr => by rw [hmain.1 hOr],
        fun hS hX => by rw [hmain.2 hS hX]⟩
    constructor
    · intro hOr
      unfold postPurchase
      rw [if_neg hb, hn]
      cases pre with
      | nil =>
        rw [List.nil_append] at hloop
        rw [List.nil_append]
        dsimp only
        have hps' : db.products = ps' := congrArg Prod.fst hpre
        rcases hOr with hS | hX
        · have hSne : ¬((tR && cU) = true) := by rw [hS]; decide
          rw [if_neg hSne]
          unfold persistPurchase
          rw [hloop]
        · rcases Bool.eq_false_or_eq_true (tR && cU) with hS | hS
          · rw [if_pos hS, if_pos hX]
            have he0 : purchaseItemStep 0 bad db.products = .error e := by
              rw [hps']
              exact he
            rw [he0]
            dsimp only
            rw [← hps']
          · have hSne : ¬((tR && cU) = true) := by rw [hS]; decide
            rw [if_neg hSne]
            unfold persistPurchase
            rw [hloop]
      | cons p0 pre' =>
        rw [List.cons_append] at hloop
        rw [List.cons_append]
        dsimp only
        rcases hOr with hS | hX
        · have hSne : ¬((tR && cU) = true) := by rw [hS]; decide
          rw [if_neg hSne]
          unfold persistPurchase
          rw [hloop]
        · rcases Bool.eq_false_or_eq_true (tR && cU) with hS | hS
          · have hstep0 : ∃ t, purchaseItemStep 0 p0 db.products = .ok t := by
              rw [processPurchaseItems_cons] at hpre
              cases hs : purchaseItemStep 0 p0 db.products with
              | ok t => exact ⟨t, rfl⟩
              | error e2 =>
                rw [hs] at hpre
                exact absurd (congrArg Prod.snd hpre) (by simp)
            obtain ⟨t, hs0⟩ := hstep0
            rw [if_pos hS, if_pos hX, hs0]
            dsimp only
            unfold persistPurchase
            rw [hloop]
          · have hSne : ¬((tR && cU) = true) := by rw [hS]; decide
            rw [if_neg hSne]
            unfold persistPurchase
            rw [hloop]
    · intro hS hX
      unfold postPurchase
      rw [if_neg hb, hn]
      have hXne : ¬(tX = true) := by rw [hX]; decide
      cases pre with
      | nil =>
        rw [List.nil_append] at hloop
        rw [List.nil_append]
        dsimp only
        rw [if_pos hS, if_neg hXne]
        unfold persistPurchase
        rw [hloop]
      | cons p0 pre' =>
        rw [List.cons_append] at hloop
        rw [List.cons_append]
        dsimp only
        rw [if_pos hS, if_neg hXne]
        unfold persistPurchase
        rw [hloop]

/-- A sale request with an empty billId. -/
def emptyBillSaleReq : SaleRequest :=
  { billId := "", customerName := "", subtotal := 0, tax := 0, total := 0
    items := some [saleItemOk3] }

/-- A sale request with no items array. -/
def noItemsSaleReq : SaleRequest :=
  { billId := "B4", customerName := "", subtotal := 0, tax := 0, total := 0
    items := none }

/-- A sale batch whose second item is missing its productId. -/
def saleReqMidBad : SaleRequest :=
  { billId := "B5", customerName := "", subtotal := 0, tax := 0, total := 0
    items := some [saleItemOk3, noIdItem] }

/-- A purchase request with an empty billId. -/
def emptyBillPurchaseReq : PurchaseRequest :=
  { billId := "", supplierName := "", subtotal := 0, tax := 0, total := 0
    items := some [purchaseItem3] }

/-- A purchase item with quantity 0. -/
def zeroQtyPurchaseItem : PurchaseItemInput :=
  { productId := "SKU-1", quantity := 0, price := 0 }

/-- A purchase batch whose second item has quantity 0. -/
def purchaseReqMidBad : PurchaseRequest :=
  { billId := "PB3", supplierName := "", subtotal := 0, tax := 0, total := 0
    items := some [purchaseItem3, zeroQtyPurchaseItem] }

/-- The store after item 0 of purchaseReqMidBad was applied. -/
def purchasePrefixDB : DB :=
  { sampleDB with products := updateProduct [sampleProduct] up1 }

/-- Witness for the amended C5: the 400 responses, a mid-batch sale
failure keeping item 0's deduction with no Sale stored, and the same
mid-batch purchase failure keeping item 0's addition on the plain path but
rolled back under a working transaction. -/
theorem request_validation_witness :
    postSale emptyBillSaleReq sampleDB =
      (400, sampleDB, .failed "billId required") ∧
    postSale noItemsSaleReq sampleDB =
      (400, sampleDB, .failed "items array required") ∧
    ((postSale saleReqMidBad sampleDB).1 = 500 ∧
     (postSale saleReqMidBad sampleDB).2.1.products = mutatedProducts ∧
     (postSale saleReqMidBad sampleDB).2.1.sales = sampleDB.sales) ∧
    postPurchase true true false emptyBillPurchaseReq sampleDB =
      (400, sampleDB, .failed "billId required") ∧
    ((postPurchase false false false purchaseReqMidBad sampleDB).1 = 500 ∧
     (postPurchase false false false purchaseReqMidBad sampleDB).2.1 =
       purchasePrefixDB) ∧
    ((postPurchase true true false purchaseReqMidBad sampleDB).1 = 500 ∧
     (postPurchase true true false purchaseReqMidBad sampleDB).2.1 =
       sampleDB) :=
  ⟨(request_validation_statuses sampleDB emptyBillSaleReq
      emptyBillPurchaseReq true true false).1 rfl,
   (request_validation_statuses sampleDB noItemsSaleReq
      emptyBillPurchaseReq true true false).2.1 (by decide) rfl,
   (request_validation_statuses sampleDB saleReqMidBad
      emptyBillPurchaseReq true true false).2.2.2.1 [saleItemOk3] []
      noIdItem mutatedProducts [saleUpdatedProduct saleItemOk3 sampleProduct]
      [saleLineItemOf saleItemOk3 sampleProduct]
      (by decide) rfl rfl (Or.inl rfl),
   (request_validation_statuses sampleDB emptyBillSaleReq
      emptyBillPurchaseReq true true false).2.2.2.2.1 rfl,
   (let h := (request_validation_statuses sampleDB emptyBillSaleReq
      purchaseReqMidBad false false false).2.2.2.2.2.2.2 [purchaseItem3] []
      zeroQtyPurchaseItem (updateProduct [sampleProduct] up1) [up1]
      [purchaseLineItemOf purchaseItem3 sampleProduct]
      (by decide) rfl rfl (Or.inr (by decide));
    ⟨h.1, h.2.2.1 (Or.inl rfl)⟩),
   (let h := (request_validation_statuses sampleDB emptyBillSaleReq
      purchaseReqMidBad true true false).2.2.2.2.2.2.2 [purchaseItem3] []
      zeroQtyPurchaseItem (updateProduct [sampleProduct] up1) [up1]
      [purchaseLineItemOf purchaseItem3 sampleProduct]
      (by decide) rfl rfl (Or.inr (by decide));
    ⟨h.1, h.2.2.2 rfl rfl⟩)⟩

/-- C6: a valid purchase item is applied unconditionally — the step
succeeds with quantity increased by the item's quantity, with no
insufficient-stock check — and over a whole successful batch, processed in
input order, each product's net quantity change equals the sum of the
quantities of the items that resolved to it (duplicates included). -/
theorem purchase_adds_unconditionally_and_net_change_is_sum :
    (∀ (i : Nat) (item : PurchaseItemInput) (ps : List Product) (p : Product),
      ¬item.productId = "" → 0 < item.quantity →
      loadProductByIdentifier item.productId ps = some p →
      purchaseItemStep i item ps =
        .ok (updateProduct ps (purchaseUpdatedProduct item p),
             purchaseUpdatedProduct item p, purchaseLineItemOf item p) ∧
      (purchaseUpdatedProduct item p).quantity =
        p.quantity + item.quantity) ∧
    (∀ (its : List PurchaseItemInput) (i : Nat)
      (ps psF ups : List Product) (lines : List PurchaseLineItem),
      (ps.map Product.mongoId).Nodup →
      processPurchaseItems its i ps = (psF, .ok (ups, lines)) →
      ∀ id, qtyOf id psF = qtyOf id ps + itemsQtySum id its ps) := by
  constructor
  · intro i item ps p hpid hq hload
    constructor
    · unfold purchaseItemStep
      rw [if_neg hpid, if_neg (not_le.mpr hq), hload]
    · rfl
  · intro its i ps psF ups lines hnd h
    exact processPurchaseItems_qtyOf its i ps psF ups lines hnd h

/-- A second purchase item for the same SKU, adding 4 units. -/
def purchaseItem4 : PurchaseItemInput :=
  { productId := "SKU-1", quantity := 4, price := 0 }

/-- The product after the second duplicate item is applied on top. -/
def up2 : Product := purchaseUpdatedProduct purchaseItem4 up1

/-- The store after the duplicate batch (5 + 3 + 4 = 12 on hand). -/
def dupProducts : List Product :=
  updateProduct (updateProduct [sampleProduct] up1) up2

/-- Witness for C6: the duplicate SKU-1 batch (3 then 4) nets +7 on the
sample store: 5 on hand becomes 12. -/
theorem purchase_net_change_witness :
    (purchaseItemStep 0 purchaseItem3 [sampleProduct] =
      .ok (updateProduct [sampleProduct] up1, up1,
           purchaseLineItemOf purchaseItem3 sampleProduct) ∧
     up1.quantity = sampleProduct.quantity + purchaseItem3.quantity) ∧
    qtyOf sampleProduct.mongoId dupProducts =
      qtyOf sampleProduct.mongoId [sampleProduct] +
        itemsQtySum sampleProduct.mongoId [purchaseItem3, purchaseItem4]
          [sampleProduct] ∧
    qtyOf sampleProduct.mongoId dupProducts = 12 :=
  ⟨purchase_adds_unconditionally_and_net_change_is_sum.1 0 purchaseItem3
    [sampleProduct] sampleProduct (by decide) (by decide) (by decide),
   purchase_adds_unconditionally_and_net_change_is_sum.2
    [purchaseItem3, purchaseItem4] 0 [sampleProduct] dupProducts [up1, up2]
    [purchaseLineItemOf purchaseItem3 sampleProduct,
     purchaseLineItemOf purchaseItem4 up1]
    (by decide) rfl sampleProduct.mongoId,
   by decide⟩

/-- C7: the snapshot stored by recalculateDashboardStats equals the
reference definition computed from the full collections: Σ price·quantity,
the low/out-of-stock counts, Σ sale totals and max(sale count, purchase
count). -/
theorem dashboard_recalculation_matches_reference (db : DB) :
    (recalculateDashboardStats db).2 = specDashboardStat db ∧
    (recalculateDashboardStats db).1.dashboard =
      some (specDashboardStat db) := by
  have hsnap : (recalculateDashboardStats db).2 = specDashboardStat db := by
    unfold recalculateDashboardStats specDashboardStat
    unfold buildInventorySnapshot buildSalesSnapshot buildPurchasesSnapshot
    dsimp only
    rw [foldl_stock_counts db.products 0 0]
    dsimp only
    rw [foldl_add_map_sum Sale.total db.sales 0,
      foldl_add_map_sum (fun p => p.price * (p.quantity : ℚ)) db.products 0]
    simp
  refine ⟨hsnap, ?_⟩
  have hd : (recalculateDashboardStats db).1.dashboard =
      some ((recalculateDashboardStats db).2) := rfl
  rw [hd, hsnap]

/-- C8: recomputing the dashboard twice with no intervening writes stores
and returns the same snapshot as recomputing once — the second run only
overwrites the singleton with identical values. -/
theorem dashboard_recalculation_idempotent (db : DB) :
    (recalculateDashboardStats (recalculateDashboardStats db).1).2 =
      (recalculateDashboardStats db).2 ∧
    (recalculateDashboardStats
        (recalculateDashboardStats db).1).1.dashboard =
      (recalculateDashboardStats db).1.dashboard :=
  ⟨rfl, rfl⟩

/-- C9: with transactions requested and the topology detected as capable,
a runtime rejection of the transaction makes the purchase route re-run the
whole batch without a session and answer 201 with that fallback result —
identical to the answer of the plain non-transactional path. -/
theorem purchase_transaction_rejection_falls_back
    (db : DB) (req : PurchaseRequest) (item0 : PurchaseItemInput)
    (rest : List PurchaseItemInput) (db' : DB) (purchase : Purchase)
    (ups : List Product)
    (hbill : ¬req.billId = "")
    (hitems : req.items = some (item0 :: rest))
    (hpersist : persistPurchase req (item0 :: rest) db =
      (db', .ok (purchase, ups))) :
    postPurchase true true true req db =
      (201, (recalculateDashboardStats db').1,
       .created purchase ups (some (recalculateDashboardStats db').2)) ∧
    postPurchase true true true req db =
      postPurchase false false false req db := by
  have hstep : ∃ t, purchaseItemStep 0 item0 db.products = .ok t := by
    cases hs : purchaseItemStep 0 item0 db.products with
    | ok t => exact ⟨t, rfl⟩
    | error e =>
      exfalso
      have hp : processPurchaseItems (item0 :: rest) 0 db.products =
          (db.products, .error e) := by
        rw [processPurchaseItems_cons, hs]
      unfold persistPurchase at hpersist
      rw [hp] at hpersist
      exact absurd (congrArg Prod.snd hpersist) (by simp)
  obtain ⟨t, hs⟩ := hstep
  have hmain : postPurchase true true true req db =
      (201, (recalculateDashboardStats db').1,
       .created purchase ups (some (recalculateDashboardStats db').2)) := by
    unfold postPurchase
    rw [if_neg hbill, hitems]
    dsimp only
    rw [hs]
    dsimp only
    rw [hpersist]
    rfl
  have hplain : postPurchase false false false req db =
      (201, (recalculateDashboardStats db').1,
       .created purchase ups (some (recalculateDashboardStats db').2)) := by
    unfold postPurchase
    rw [if_neg hbill, hitems]
    dsimp only
    rw [hpersist]
    rfl
  exact ⟨hmain, hmain.trans hplain.symm⟩

/-- The purchase record the fallback path persists for purchaseReq3. -/
def fallbackPurchase : Purchase :=
  { billId := normalizeString purchaseReq3.billId
    supplierName := "Unknown Supplier"
    subtotal := 0
    tax := 0
    total := 0
    items := [purchaseLineItemOf purchaseItem3 sampleProduct] }

/-- The store after the fallback run of purchaseReq3. -/
def fallbackDB : DB :=
  { sampleDB with
    products := updateProduct [sampleProduct] up1
    purchases := [fallbackPurchase] }

/-- Witness for C9 at the concrete purchase batch. -/
theorem purchase_transaction_rejection_witness :
    postPurchase true true true purchaseReq3 sampleDB =
      (201, (recalculateDashboardStats fallbackDB).1,
       .created fallbackPurchase [up1]
         (some (recalculateDashboardStats fallbackDB).2)) ∧
    postPurchase true true true purchaseReq3 sampleDB =
      postPurchase false false false purchaseReq3 sampleDB :=
  purchase_transaction_rejection_falls_back sampleDB purchaseReq3
    purchaseItem3 [] fallbackDB fallbackPurchase [up1]
    (by decide) rfl rfl

/-- C10: whatever a sale or purchase request does to the store, every
product's name, sku, productId, reorderPoint, size, gsm and image are
exactly what they were before — the processor writes only quantity and
price. -/
theorem processor_touches_only_quantity_and_price
    (db : DB) (hnd : (db.products.map Product.mongoId).Nodup) :
    (∀ (req : SaleRequest) (id : String),
      (((postSale req db).2.1.products.find? fun q => q.mongoId = id).map
        productFrame) =
      ((db.products.find? fun q => q.mongoId = id).map productFrame)) ∧
    (∀ (tR cU tX : Bool) (req : PurchaseRequest) (id : String),
      (((postPurchase tR cU tX req db).2.1.products.find? fun q =>
          q.mongoId = id).map productFrame) =
      ((db.products.find? fun q => q.mongoId = id).map productFrame)) := by
  constructor
  · intro req id
    unfold postSale
    by_cases hb : req.billId = ""
    · rw [if_pos hb]
    · rw [if_neg hb]
      cases hit : req.items with
      | none => rfl
      | some items =>
        cases items with
        | nil => rfl
        | cons x xs =>
          dsimp only
          unfold persistSale
          have hres := (processSaleItems_frame (x :: xs) 0 db.products hnd).2 id
          rcases hproc : processSaleItems (x :: xs) 0 db.products with ⟨ps', r⟩
          rw [hproc] at hres
          cases r with
          | error e => exact hres
          | ok pr =>
            obtain ⟨ups, lines⟩ := pr
            exact hres
  · intro tR cU tX req id
    unfold postPurchase
    by_cases hb : req.billId = ""
    · rw [if_pos hb]
    · rw [if_neg hb]
      cases hit : req.items with
      | none => rfl
      | some items =>
        cases items with
        | nil => rfl
        | cons x xs =>
          dsimp only
          have hres :=
            (processPurchaseItems_frame (x :: xs) 0 db.products hnd).2 id
          by_cases hS : (tR && cU) = true
          · rw [if_pos hS]
            by_cases hX : tX = true
            · rw [if_pos hX]
              cases hstep : purchaseItemStep 0 x db.products with
              | error e => rfl
              | ok t =>
                obtain ⟨ps1, up, line⟩ := t
                dsimp only
                unfold persistPurchase
                rcases hproc : processPurchaseItems (x :: xs) 0 db.products
                  with ⟨ps', r⟩
                rw [hproc] at hres
                cases r with
                | error e => exact hres
                | ok pr =>
                  obtain ⟨ups, lines⟩ := pr
                  exact hres
            · rw [if_neg hX]
              unfold persistPurchase
              rcases hproc : processPurchaseItems (x :: xs) 0 db.products
                with ⟨ps', r⟩
              rw [hproc] at hres
              cases r with
              | error e => rfl
              | ok pr =>
                obtain ⟨ups, lines⟩ := pr
                exact hres
          · rw [if_neg hS]
            unfold persistPurchase
            rcases hproc : processPurchaseItems (x :: xs) 0 db.products
              with ⟨ps', r⟩
            rw [hproc] at hres
            cases r with
            | error e => exact hres
            | ok pr =>
              obtain ⟨ups, lines⟩ := pr
              exact hres

/-- Witness for C10 on the sample store, a sale and a purchase. -/
theorem processor_frame_witness :
    (sampleDB.products.map Product.mongoId).Nodup ∧
    (((postSale saleReqExact sampleDB).2.1.products.find? fun q =>
        q.mongoId = sampleProduct.mongoId).map productFrame) =
      ((sampleDB.products.find? fun q =>
        q.mongoId = sampleProduct.mongoId).map productFrame) ∧
    (((postPurchase false false false purchaseReq3
        sampleDB).2.1.products.find? fun q =>
        q.mongoId = sampleProduct.mongoId).map productFrame) =
      ((sampleDB.products.find? fun q =>
        q.mongoId = sampleProduct.mongoId).map productFrame) :=
  ⟨by decide,
   (processor_touches_only_quantity_and_price sampleDB (by decide)).1
     saleReqExact sampleProduct.mongoId,
   (processor_touches_only_quantity_and_price sampleDB (by decide)).2
     false false false purchaseReq3 sampleProduct.mongoId⟩
